import Mathlib

/-!
Shallow embedding of `twod_threed/run.py`: a pretrained 2D-to-3D pose model is run over a
dataset of 2D joint predictions and the 3D predictions are written to disk.

Python/torch tensors are modelled as nested rational arrays; the torch dict is an association
list in iteration order; exceptions are modelled with `Except String`; the filesystem seen by
`_save_preds` is an explicit state record.
-/

/-- Nested-array model of a torch tensor (scalars are rationals; `arr` stacks subtensors
along the leading dimension, so `t[i]` is `List.get?` on the `arr` children). -/
inductive Tensor where
  | scalar : ℚ → Tensor
  | arr : List Tensor → Tensor

/-- Whether a tensor is a 0-dimensional scalar. -/
def Tensor.isScalar : Tensor → Bool
  | .scalar _ => true
  | .arr _ => false

/-- Whether a tensor is a 1-dimensional row of width `w`. -/
def Tensor.isRow (w : Nat) : Tensor → Bool
  | .arr cs => cs.length == w && cs.all Tensor.isScalar
  | .scalar _ => false

/-- Whether a tensor is a 2-dimensional `h x w` matrix. -/
def Tensor.isMatrix (h w : Nat) : Tensor → Bool
  | .arr rows => rows.length == h && rows.all (Tensor.isRow w)
  | .scalar _ => false

/-- Whether a tensor is 3-dimensional with shape `a x b x c`. -/
def Tensor.isCube (a b c : Nat) : Tensor → Bool
  | .arr mats => mats.length == a && mats.all (Tensor.isMatrix b c)
  | .scalar _ => false

/-- Modelled from the spec: the pretrained 2D-to-3D pose model (`LinearModel` from
`twod_threed.src.model`, which is absent from the sources). The spec calls it "an opaque
pretrained function mapping a fixed-size 2D joint-coordinate vector to a 3D joint-coordinate
vector"; running it "through the model, extracts the final-stage output", so the forward pass
yields a list of staged outputs whose final stage is a `numJoints x 3` array. Any internal
failure (e.g. a shape mismatch) surfaces as a raised exception, modelled as `.error`. -/
structure Model where
  numJoints : Nat
  forward : Tensor → Except String (List Tensor)
  final_shape : ∀ t stages, forward t = Except.ok stages →
    ∃ last, stages.getLast? = some last ∧ last.isMatrix numJoints 3 = true

/-- Embedding of `_run_model_single_image`: `input_tensor.unsqueeze(0)` wraps the frame as a
one-item batch, the model runs on it, `output[-1]` takes the final stage (raising `IndexError`
on an empty output), and `.data.cpu()` is the identity here. -/
def _run_model_single_image (model : Model) (input_tensor : Tensor) :
    Except String Tensor := do
  let output ← model.forward (Tensor.arr [input_tensor])
  match output.getLast? with
  | some t => Except.ok t
  | none => Except.error "IndexError"

/-- Embedding of `_run_model_video`: loops `i` over `range(input_tensor.size()[0])` applying
the single-image step to `input_tensor[i]` and appending the results in order, which is
`List.mapM` over the leading dimension; `size()[0]` of a 0-dimensional tensor raises. -/
def _run_model_video (model : Model) (input_tensor : Tensor) :
    Except String (List Tensor) :=
  match input_tensor with
  | .arr frames => frames.mapM (_run_model_single_image model)
  | .scalar _ => Except.error "IndexError"

/-- The progress line printed by `_run_model` for key index `i` of `n`. -/
def progressMsg (i n : Nat) : String :=
  "At " ++ toString i ++ " out of " ++ toString n ++ " videos."

/-- One entry of the predictions dict: a single array in image mode, a list of per-frame
arrays in video mode (Python dict values are untyped; this sum keeps the two apart). -/
inductive Prediction where
  | image : Tensor → Prediction
  | video : List Tensor → Prediction

/-- The per-key step of `_run_model`'s loop body: the branch on `process_as_video`. -/
def stepKey (model : Model) (process_as_video : Bool) (input_tensor : Tensor) :
    Except String Prediction :=
  if process_as_video then
    Prediction.video <$> _run_model_video model input_tensor
  else
    Prediction.image <$> _run_model_single_image model input_tensor

/-- The loop of `_run_model` over the dataset keys: `i` is the loop counter, `predictions`
the dict built so far, `prints` the progress lines emitted so far, `n = len(dataset)`. -/
def _run_model_go (model : Model) (process_as_video : Bool) (n : Nat) :
    List (String × Tensor) → Nat → List (String × Prediction) → List String →
    Except String (List (String × Prediction) × List String)
  | [], _, predictions, prints => Except.ok (predictions, prints)
  | (key, v) :: rest, i, predictions, prints =>
    let prints := if i % 30 == 0 then prints ++ [progressMsg i n] else prints
    match stepKey model process_as_video v with
    | Except.error e => Except.error e
    | Except.ok p =>
      _run_model_go model process_as_video n rest (i + 1)
        (predictions ++ [(key, p)]) prints

/-- Embedding of `_run_model`: the dataset (the Python dict obtained by `torch.load`) is an
association list in iteration order; `torch.Tensor(dataset[key])` is the identity on our
tensors. Returns the predictions dict together with the printed progress lines. -/
def _run_model (model : Model) (dataset : List (String × Tensor))
    (process_as_video : Bool) :
    Except String (List (String × Prediction) × List String) :=
  _run_model_go model process_as_video dataset.length dataset 0 [] []

/-- Modelled from the spec: the filesystem state visible to `_save_preds`. `writable`
abstracts whether the filesystem accepts writes (the spec lists "unwritable directory" among
the propagated failures); `dirs` is the set of existing directories; `files` maps a path to
its last written content (most recent first); `writes` is an append-only log of every file
write performed, used to state how many files a run writes and where. -/
structure FS where
  writable : Bool
  dirs : List String
  files : List (String × List (String × Prediction))
  writes : List (String × List (String × Prediction))

/-- Modelled from the spec: `utils.osutils.isdir` (absent from the sources) — whether the
directory exists. -/
def isdir (d : String) (fs : FS) : Bool := fs.dirs.contains d

/-- Modelled from the spec: `os.makedirs` as used by `utils.osutils.mkdir_p` — creates the
directory tree, raising `EEXIST` when it already exists and `EACCES` when the filesystem is
not writable. -/
def makedirs (d : String) (fs : FS) : Except String FS :=
  if !fs.writable then Except.error "EACCES"
  else if fs.dirs.contains d then Except.error "EEXIST"
  else Except.ok { fs with dirs := fs.dirs ++ [d] }

/-- Modelled from the spec: `utils.osutils.mkdir_p` (absent from the sources) — "Creates the
directory tree if absent", swallowing only the already-exists error. -/
def mkdir_p (d : String) (fs : FS) : Except String FS :=
  match makedirs d fs with
  | Except.ok fs' => Except.ok fs'
  | Except.error e => if e == "EEXIST" then Except.ok fs else Except.error e

/-- Modelled from the spec: `torch.save` — serializes the value to the given path, raising
when the filesystem is not writable; the write is recorded in the `writes` log. -/
def torch_save (v : List (String × Prediction)) (path : String) (fs : FS) :
    Except String FS :=
  if !fs.writable then Except.error "EACCES"
  else Except.ok { fs with files := (path, v) :: fs.files, writes := fs.writes ++ [(path, v)] }

/-- Embedding of `_save_preds`: make the output directory if it does not exist, then save the
predictions dict to `data_output_dir + "/3dposes"`. -/
def _save_preds (dataset : List (String × Prediction)) (data_output_dir : String)
    (fs : FS) : Except String FS :=
  match (if !(isdir data_output_dir fs) then mkdir_p data_output_dir fs else Except.ok fs) with
  | Except.error e => Except.error e
  | Except.ok fs' => torch_save dataset (data_output_dir ++ "/3dposes") fs'

/-- Modelled from the spec: `_load_model` builds the architecture and deserializes checkpoint
weights — opaque I/O that "Fails if the file is missing, malformed, or its stored parameters
do not match the expected architecture shape". The run is therefore parameterised by its
outcome: either a loaded model or the propagated exception. -/
def _load_model (outcome : Except String Model) : Except String Model := outcome

/-- Embedding of `run`: load the model, run it over the dataset, save the predictions. No
stage catches errors, so the first `.error` propagates unchanged and leaves the filesystem
untouched. Returns the final filesystem plus either the progress lines or the error. -/
def run (load_outcome : Except String Model) (dataset : List (String × Tensor))
    (process_as_video : Bool) (data_output_dir : String) (fs : FS) :
    FS × Except String (List String) :=
  match _load_model load_outcome with
  | Except.error e => (fs, Except.error e)
  | Except.ok model =>
    match _run_model model dataset process_as_video with
    | Except.error e => (fs, Except.error e)
    | Except.ok (predictions, prints) =>
      match _save_preds predictions data_output_dir fs with
      | Except.error e => (fs, Except.error e)
      | Except.ok fs' => (fs', Except.ok prints)

/-- One dataset entry through the per-key step, keeping its key. -/
def stepEntry (model : Model) (process_as_video : Bool) (kv : String × Tensor) :
    Except String (String × Prediction) :=
  (stepKey model process_as_video kv.2).map (fun p => (kv.1, p))


/-! ### Concrete instances used to evaluate the theorems -/

/-- A zero-filled `j x 3` pose array. -/
def zeroPose (j : Nat) : Tensor :=
  Tensor.arr (List.replicate j
    (Tensor.arr [Tensor.scalar 0, Tensor.scalar 0, Tensor.scalar 0]))

/-- A zero-filled `16 x 2` input frame. -/
def zeroFrame : Tensor :=
  Tensor.arr (List.replicate 16 (Tensor.arr [Tensor.scalar 0, Tensor.scalar 0]))

/-- A concrete model: one output stage holding a zero `16 x 3` pose for any input. -/
def testModel : Model where
  numJoints := 16
  forward := fun _ => Except.ok [zeroPose 16]
  final_shape := by
    intro t stages h
    cases h
    exact ⟨zeroPose 16, rfl, rfl⟩

/-- A concrete writable empty filesystem. -/
def fs0 : FS := ⟨true, [], [], []⟩

/-- The predictions dict for the keys `"a", "b"` in that order, under `testModel`. -/
def predsAB : List (String × Prediction) :=
  [("a", Prediction.image (zeroPose 16)), ("b", Prediction.image (zeroPose 16))]

/-- The predictions dict for the keys `"b", "a"` in that order, under `testModel`. -/
def predsBA : List (String × Prediction) :=
  [("b", Prediction.image (zeroPose 16)), ("a", Prediction.image (zeroPose 16))]

/-- A model whose forward pass always raises. -/
def failModel : Model where
  numJoints := 16
  forward := fun _ => Except.error "RuntimeError"
  final_shape := by
    intro t stages h
    cases h


/-! ### Helper lemmas about `Except` and `List.mapM` -/

@[simp] theorem exceptOk_bind {α β : Type} (a : α) (f : α → Except String β) :
    (Except.ok a >>= f) = f a := rfl

@[simp] theorem exceptError_bind {α β : Type} (e : String) (f : α → Except String β) :
    ((Except.error e : Except String α) >>= f) = Except.error e := rfl

@[simp] theorem exceptPure_eq_ok {α : Type} (a : α) :
    (pure a : Except String α) = Except.ok a := rfl

@[simp] theorem exceptMap_ok {α β : Type} (g : α → β) (a : α) :
    (Except.ok a : Except String α).map g = Except.ok (g a) := rfl

@[simp] theorem exceptMap_error {α β : Type} (g : α → β) (e : String) :
    (Except.error e : Except String α).map g = Except.error e := rfl

theorem mapM_cons_ok {α β : Type} {f : α → Except String β} {a : α} {l : List α}
    {b : β} {bs : List β} (hfa : f a = Except.ok b) (hl : l.mapM f = Except.ok bs) :
    (a :: l).mapM f = Except.ok (b :: bs) := by
  rw [List.mapM_cons, hfa, exceptOk_bind, hl]
  rfl

theorem mapM_cons_ok_iff {α β : Type} (f : α → Except String β) (a : α) (l : List α)
    (out : List β) :
    (a :: l).mapM f = Except.ok out ↔
      ∃ b bs, f a = Except.ok b ∧ l.mapM f = Except.ok bs ∧ out = b :: bs := by
  constructor
  · intro h
    rw [List.mapM_cons] at h
    cases hfa : f a with
    | error e => rw [hfa] at h; simp at h
    | ok b =>
      rw [hfa] at h
      cases hl : l.mapM f with
      | error e => rw [hl] at h; simp at h
      | ok bs =>
        rw [hl] at h
        simp at h
        exact ⟨b, bs, rfl, rfl, h.symm⟩
  · rintro ⟨b, bs, hfa, hl, rfl⟩
    exact mapM_cons_ok hfa hl

theorem mapM_ok_spec {α β : Type} (f : α → Except String β) :
    ∀ (l : List α) (out : List β), l.mapM f = Except.ok out →
      out.length = l.length ∧
      ∀ i (h1 : i < l.length) (h2 : i < out.length),
        f (l.get ⟨i, h1⟩) = Except.ok (out.get ⟨i, h2⟩) := by
  intro l
  induction l with
  | nil =>
    intro out h
    rw [List.mapM_nil, exceptPure_eq_ok] at h
    cases h
    simp
  | cons a as ih =>
    intro out h
    rw [mapM_cons_ok_iff] at h
    obtain ⟨b, bs, hfa, hl, rfl⟩ := h
    obtain ⟨hlen, hidx⟩ := ih bs hl
    refine ⟨by simp [hlen], ?_⟩
    intro i h1 h2
    cases i with
    | zero => simpa using hfa
    | succ j =>
      simp only [List.get_cons_succ]
      exact hidx j (by simpa using h1) (by simpa using h2)

theorem mapM_ok_perm {α β : Type} (f : α → Except String β) {l l' : List α}
    (hp : l.Perm l') :
    ∀ out, l.mapM f = Except.ok out →
      ∃ out', l'.mapM f = Except.ok out' ∧ out.Perm out' := by
  induction hp with
  | nil => exact fun out h => ⟨out, h, List.Perm.refl _⟩
  | cons x p ih =>
    intro out h
    rw [mapM_cons_ok_iff] at h
    obtain ⟨b, bs, hfx, hl, rfl⟩ := h
    obtain ⟨bs', hl', hbp⟩ := ih bs hl
    exact ⟨b :: bs', mapM_cons_ok hfx hl', List.Perm.cons b hbp⟩
  | swap x y l =>
    intro out h
    rw [mapM_cons_ok_iff] at h
    obtain ⟨by_, rest1, hfy, h1, rfl⟩ := h
    rw [mapM_cons_ok_iff] at h1
    obtain ⟨bx, bs, hfx, hl, rfl⟩ := h1
    exact ⟨bx :: by_ :: bs, mapM_cons_ok hfx (mapM_cons_ok hfy hl),
      List.Perm.swap bx by_ bs⟩
  | trans p1 p2 ih1 ih2 =>
    intro out h
    obtain ⟨o1, h1, hp1⟩ := ih1 out h
    obtain ⟨o2, h2, hp2⟩ := ih2 o1 h1
    exact ⟨o2, h2, hp1.trans hp2⟩

/-! ### Characterization of the `_run_model` loop -/

theorem run_model_go_eq (model : Model) (pav : Bool) (n : Nat) :
    ∀ (l : List (String × Tensor)) (i : Nat) (acc : List (String × Prediction))
      (pr : List String),
      _run_model_go model pav n l i acc pr =
        (l.mapM (stepEntry model pav)).map (fun out =>
          (acc ++ out,
           pr ++ ((List.range' i l.length).filter (fun j => j % 30 == 0)).map
             (fun j => progressMsg j n))) := by
  intro l
  induction l with
  | nil =>
    intro i acc pr
    rw [List.mapM_nil, exceptPure_eq_ok, exceptMap_ok]
    simp [_run_model_go]
  | cons kv rest ih =>
    obtain ⟨key, v⟩ := kv
    intro i acc pr
    show (match stepKey model pav v with
      | Except.error e => Except.error e
      | Except.ok p => _run_model_go model pav n rest (i + 1) (acc ++ [(key, p)])
          (if i % 30 == 0 then pr ++ [progressMsg i n] else pr)) = _
    cases hs : stepKey model pav v with
    | error e =>
      have hfa : stepEntry model pav (key, v) = Except.error e := by
        simp [stepEntry, hs]
      rw [List.mapM_cons, hfa, exceptError_bind, exceptMap_error]
    | ok p =>
      have hfa : stepEntry model pav (key, v) = Except.ok (key, p) := by
        simp [stepEntry, hs]
      show _run_model_go model pav n rest (i + 1) (acc ++ [(key, p)])
          (if i % 30 == 0 then pr ++ [progressMsg i n] else pr) = _
      rw [ih]
      rw [List.mapM_cons, hfa, exceptOk_bind]
      cases hrest : rest.mapM (stepEntry model pav) with
      | error e =>
        rw [exceptMap_error]
        rw [exceptError_bind, exceptMap_error]
      | ok out =>
        rw [exceptMap_ok, exceptOk_bind, exceptPure_eq_ok, exceptMap_ok]
        have hrange : List.range' i (rest.length + 1) = i :: List.range' (i + 1) rest.length :=
          List.range'_succ i rest.length 1
        refine congrArg Except.ok (Prod.ext ?_ ?_)
        · simp
        · show (if i % 30 == 0 then pr ++ [progressMsg i n] else pr) ++ _ = _
          rw [List.length_cons, hrange, List.filter_cons]
          cases h30 : i % 30 == 0 with
          | true => simp
          | false => simp [h30]

theorem run_model_eq (model : Model) (ds : List (String × Tensor)) (pav : Bool) :
    _run_model model ds pav =
      (ds.mapM (stepEntry model pav)).map (fun out =>
        (out, ((List.range ds.length).filter (fun j => j % 30 == 0)).map
          (fun j => progressMsg j ds.length))) := by
  show _run_model_go model pav ds.length ds 0 [] [] = _
  rw [run_model_go_eq, ← List.range_eq_range']
  cases h : ds.mapM (stepEntry model pav) with
  | error e => rw [exceptMap_error, exceptMap_error]
  | ok out => rw [exceptMap_ok, exceptMap_ok]; simp

theorem stepEntry_ok_fst (model : Model) (pav : Bool) (kv : String × Tensor)
    (b : String × Prediction) (h : stepEntry model pav kv = Except.ok b) :
    b.1 = kv.1 := by
  unfold stepEntry at h
  cases hs : stepKey model pav kv.2 with
  | error e => rw [hs, exceptMap_error] at h; cases h
  | ok p => rw [hs, exceptMap_ok] at h; cases h; rfl

theorem mapM_stepEntry_keys (model : Model) (pav : Bool) :
    ∀ (l : List (String × Tensor)) (out : List (String × Prediction)),
      l.mapM (stepEntry model pav) = Except.ok out →
      out.map Prod.fst = l.map Prod.fst := by
  intro l
  induction l with
  | nil =>
    intro out h
    rw [List.mapM_nil, exceptPure_eq_ok] at h
    cases h
    rfl
  | cons kv rest ih =>
    intro out h
    rw [mapM_cons_ok_iff] at h
    obtain ⟨b, bs, hfa, hl, rfl⟩ := h
    have hb := stepEntry_ok_fst model pav kv b hfa
    simp [hb, ih bs hl]

theorem lookup_eq_of_perm {β : Type} {l l' : List (String × β)} (hp : l.Perm l') :
    (l.map Prod.fst).Nodup → ∀ k, l.lookup k = l'.lookup k := by
  induction hp with
  | nil => intro _ k; rfl
  | cons x p ih =>
    intro hnd k
    obtain ⟨a, b⟩ := x
    simp only [List.map_cons, List.nodup_cons] at hnd
    cases hka : k == a <;> simp [List.lookup, hka, ih hnd.2 k]
  | swap x y l =>
    intro hnd k
    obtain ⟨a, b⟩ := x
    obtain ⟨c, d⟩ := y
    have hne : c ≠ a := by
      simp only [List.map_cons, List.nodup_cons, List.mem_cons] at hnd
      exact fun hca => hnd.1 (Or.inl hca)
    cases hkc : k == c <;> cases hka : k == a
    · simp [List.lookup, hkc, hka]
    · simp [List.lookup, hkc, hka]
    · simp [List.lookup, hkc, hka]
    · exact absurd ((eq_of_beq hkc).symm.trans (eq_of_beq hka)) hne
  | trans p1 p2 ih1 ih2 =>
    intro hnd k
    exact (ih1 hnd k).trans (ih2 (((p1.map Prod.fst).nodup_iff).mp hnd) k)

theorem single_image_shape_aux (model : Model) (input out : Tensor)
    (h : _run_model_single_image model input = Except.ok out) :
    out.isMatrix model.numJoints 3 = true := by
  unfold _run_model_single_image at h
  cases hf : model.forward (Tensor.arr [input]) with
  | error e => rw [hf, exceptError_bind] at h; cases h
  | ok stages =>
    rw [hf, exceptOk_bind] at h
    obtain ⟨last, hlast, hshape⟩ := model.final_shape _ stages hf
    rw [hlast] at h
    cases h
    exact hshape

theorem video_frames_aux (model : Model) (frames : List Tensor) (out : List Tensor)
    (h : _run_model_video model (Tensor.arr frames) = Except.ok out) :
    out.length = frames.length ∧
    ∀ i (h1 : i < frames.length) (h2 : i < out.length),
      _run_model_single_image model (frames.get ⟨i, h1⟩) = Except.ok (out.get ⟨i, h2⟩) :=
  mapM_ok_spec _ frames out h

/-! ### Claims -/

/-- C1: for every input dataset, the predictions dict returned by `_run_model` has exactly
the same keys as the input dataset (here: the very key list, hence the same key set),
regardless of the `process_as_video` flag. -/
theorem C1_run_model_preserves_keys (model : Model) (ds : List (String × Tensor))
    (pav : Bool) (preds : List (String × Prediction)) (pr : List String)
    (h : _run_model model ds pav = Except.ok (preds, pr)) :
    preds.map Prod.fst = ds.map Prod.fst := by
  rw [run_model_eq] at h
  cases hm : ds.mapM (stepEntry model pav) with
  | error e => rw [hm, exceptMap_error] at h; cases h
  | ok out =>
    rw [hm, exceptMap_ok] at h
    cases h
    exact mapM_stepEntry_keys model pav ds _ hm

/-- Witness for C1 at a one-key dataset in image mode. -/
theorem C1_witness :
    _run_model testModel [("a", zeroFrame)] false =
      Except.ok ([("a", Prediction.image (zeroPose 16))], [progressMsg 0 1]) ∧
    ([("a", Prediction.image (zeroPose 16))].map Prod.fst
      = [("a", zeroFrame)].map Prod.fst) :=
  ⟨rfl, C1_run_model_preserves_keys testModel [("a", zeroFrame)] false _ _ rfl⟩

/-- C2: in video mode an `N`-frame input yields a length-`N` sequence whose `i`-th element
is exactly the single-image result on frame `i` alone, in frame order. -/
theorem C2_video_framewise (model : Model) (frames : List Tensor) (out : List Tensor)
    (h : _run_model_video model (Tensor.arr frames) = Except.ok out) :
    out.length = frames.length ∧
    ∀ i (h1 : i < frames.length) (h2 : i < out.length),
      _run_model_single_image model (frames.get ⟨i, h1⟩) = Except.ok (out.get ⟨i, h2⟩) :=
  video_frames_aux model frames out h

/-- Witness for C2 on a two-frame video. -/
theorem C2_witness :
    _run_model_video testModel (Tensor.arr [zeroFrame, zeroFrame]) =
      Except.ok [zeroPose 16, zeroPose 16] ∧
    ([zeroPose 16, zeroPose 16] : List Tensor).length =
      ([zeroFrame, zeroFrame] : List Tensor).length ∧
    _run_model_single_image testModel
        (([zeroFrame, zeroFrame] : List Tensor).get ⟨0, by decide⟩) =
      Except.ok (([zeroPose 16, zeroPose 16] : List Tensor).get ⟨0, by decide⟩) := by
  refine ⟨rfl,
    (C2_video_framewise testModel [zeroFrame, zeroFrame] [zeroPose 16, zeroPose 16] rfl).1, ?_⟩
  exact (C2_video_framewise testModel [zeroFrame, zeroFrame] [zeroPose 16, zeroPose 16]
    rfl).2 0 (by decide) (by decide)

/-- C3: whenever the image-mode path returns an array, that array is `numJoints x 3`. -/
theorem C3_single_image_shape (model : Model) (input out : Tensor)
    (h : _run_model_single_image model input = Except.ok out) :
    out.isMatrix model.numJoints 3 = true :=
  single_image_shape_aux model input out h

/-- Witness for C3 on a single frame. -/
theorem C3_witness :
    _run_model_single_image testModel zeroFrame = Except.ok (zeroPose 16) ∧
    (zeroPose 16).isMatrix testModel.numJoints 3 = true :=
  ⟨rfl, C3_single_image_shape testModel zeroFrame _ rfl⟩

/-- C6: a progress line is printed exactly for the keys whose zero-based index is a
multiple of 30, starting with the first key. -/
theorem C6_progress_cadence (model : Model) (ds : List (String × Tensor)) (pav : Bool)
    (preds : List (String × Prediction)) (pr : List String)
    (h : _run_model model ds pav = Except.ok (preds, pr)) :
    pr = ((List.range ds.length).filter (fun i => i % 30 == 0)).map
      (fun i => progressMsg i ds.length) := by
  rw [run_model_eq] at h
  cases hm : ds.mapM (stepEntry model pav) with
  | error e => rw [hm, exceptMap_error] at h; cases h
  | ok out =>
    rw [hm, exceptMap_ok] at h
    cases h
    rfl

/-- Witness for C6 on a two-key dataset: one line, for index 0. -/
theorem C6_witness :
    _run_model testModel [("a", zeroFrame), ("b", zeroFrame)] false =
      Except.ok ([("a", Prediction.image (zeroPose 16)),
                  ("b", Prediction.image (zeroPose 16))], [progressMsg 0 2]) ∧
    [progressMsg 0 2] =
      ((List.range ([("a", zeroFrame), ("b", zeroFrame)] :
          List (String × Tensor)).length).filter (fun i => i % 30 == 0)).map
        (fun i => progressMsg i ([("a", zeroFrame), ("b", zeroFrame)] :
          List (String × Tensor)).length) :=
  ⟨rfl, C6_progress_cadence testModel [("a", zeroFrame), ("b", zeroFrame)] false _ _ rfl⟩

/-- C4: a dataset holding one key `"a"` with a `2 x 16 x 2` array, run with the video flag
set, yields a predictions dict mapping `"a"` to a sequence of two `16 x 3` arrays. -/
theorem C4_example_2x16x2 (model : Model) (t : Tensor)
    (preds : List (String × Prediction)) (pr : List String)
    (hj : model.numJoints = 16)
    (ht : t.isCube 2 16 2 = true)
    (h : _run_model model [("a", t)] true = Except.ok (preds, pr)) :
    ∃ p0 p1 : Tensor, preds = [("a", Prediction.video [p0, p1])] ∧
      p0.isMatrix 16 3 = true ∧ p1.isMatrix 16 3 = true := by
  rw [run_model_eq] at h
  cases hm : ([("a", t)] : List (String × Tensor)).mapM (stepEntry model true) with
  | error e => rw [hm, exceptMap_error] at h; cases h
  | ok out =>
    rw [hm, exceptMap_ok] at h
    cases h
    rw [mapM_cons_ok_iff] at hm
    obtain ⟨b, bs, hb, hnil, hpred⟩ := hm
    rw [List.mapM_nil, exceptPure_eq_ok] at hnil
    cases hnil
    subst hpred
    replace hb : (Except.map Prediction.video (_run_model_video model t)).map
        (fun p => ("a", p)) = Except.ok b := hb
    cases hv : _run_model_video model t with
    | error e => rw [hv, exceptMap_error, exceptMap_error] at hb; cases hb
    | ok vs =>
      rw [hv, exceptMap_ok, exceptMap_ok] at hb
      cases hb
      cases t with
      | scalar q => exact absurd ht (by simp [Tensor.isCube])
      | arr mats =>
        replace hv : mats.mapM (_run_model_single_image model) = Except.ok vs := hv
        simp only [Tensor.isCube, Bool.and_eq_true, beq_iff_eq] at ht
        obtain ⟨hvlen, hvidx⟩ := mapM_ok_spec _ mats vs hv
        have hvs2 : vs.length = 2 := by rw [hvlen, ht.1]
        obtain ⟨p0, p1, rfl⟩ := List.length_eq_two.mp hvs2
        refine ⟨p0, p1, rfl, ?_, ?_⟩
        · have h0 := hvidx 0 (by omega) (by omega)
          have hs0 := single_image_shape_aux model _ _ h0
          rwa [hj] at hs0
        · have h1 := hvidx 1 (by omega) (by omega)
          have hs1 := single_image_shape_aux model _ _ h1
          rwa [hj] at hs1

/-- Witness for C4 on a concrete `2 x 16 x 2` zero input. -/
theorem C4_witness :
    testModel.numJoints = 16 ∧
    (Tensor.arr [zeroFrame, zeroFrame]).isCube 2 16 2 = true ∧
    _run_model testModel [("a", Tensor.arr [zeroFrame, zeroFrame])] true =
      Except.ok ([("a", Prediction.video [zeroPose 16, zeroPose 16])],
        [progressMsg 0 1]) ∧
    ∃ p0 p1 : Tensor,
      [("a", Prediction.video [zeroPose 16, zeroPose 16])] =
        [("a", Prediction.video [p0, p1])] ∧
      p0.isMatrix 16 3 = true ∧ p1.isMatrix 16 3 = true :=
  ⟨rfl, rfl, rfl,
    C4_example_2x16x2 testModel (Tensor.arr [zeroFrame, zeroFrame])
      [("a", Prediction.video [zeroPose 16, zeroPose 16])] [progressMsg 0 1]
      rfl rfl rfl⟩

/-- C5: each key's prediction depends only on that key's input array, the model and the
flag; consequently iterating the same dataset's keys in any other order permutes the
predictions dict accordingly and, when keys are distinct, both runs denote the same
key-to-prediction mapping. -/
theorem C5_order_independent (model : Model) (pav : Bool)
    (ds ds' : List (String × Tensor)) (hperm : ds.Perm ds')
    (preds preds' : List (String × Prediction)) (pr pr' : List String)
    (h : _run_model model ds pav = Except.ok (preds, pr))
    (h' : _run_model model ds' pav = Except.ok (preds', pr')) :
    preds.Perm preds' ∧
    ((ds.map Prod.fst).Nodup → ∀ k, preds.lookup k = preds'.lookup k) := by
  rw [run_model_eq] at h h'
  cases hm : ds.mapM (stepEntry model pav) with
  | error e => rw [hm, exceptMap_error] at h; cases h
  | ok out =>
    rw [hm, exceptMap_ok] at h
    cases h
    cases hm' : ds'.mapM (stepEntry model pav) with
    | error e => rw [hm', exceptMap_error] at h'; cases h'
    | ok out' =>
      rw [hm', exceptMap_ok] at h'
      cases h'
      obtain ⟨o2, ho2, hp2⟩ := mapM_ok_perm _ hperm _ hm
      rw [hm'] at ho2
      cases ho2
      refine ⟨hp2, fun hnd k => ?_⟩
      have hkeys := mapM_stepEntry_keys model pav ds _ hm
      exact lookup_eq_of_perm hp2 (by rw [hkeys]; exact hnd) k

/-- Witness for C5: two keys iterated in both orders give permuted dicts agreeing on
lookup. -/
theorem C5_witness :
    ([("a", zeroFrame), ("b", zeroFrame)] : List (String × Tensor)).Perm
      [("b", zeroFrame), ("a", zeroFrame)] ∧
    _run_model testModel [("a", zeroFrame), ("b", zeroFrame)] false =
      Except.ok (predsAB, [progressMsg 0 2]) ∧
    _run_model testModel [("b", zeroFrame), ("a", zeroFrame)] false =
      Except.ok (predsBA, [progressMsg 0 2]) ∧
    predsAB.Perm predsBA ∧
    predsAB.lookup "a" = predsBA.lookup "a" := by
  have h := C5_order_independent testModel false
    [("a", zeroFrame), ("b", zeroFrame)] [("b", zeroFrame), ("a", zeroFrame)]
    (List.Perm.swap _ _ _) predsAB predsBA
    [progressMsg 0 2] [progressMsg 0 2] rfl rfl
  exact ⟨List.Perm.swap _ _ _, rfl, rfl, h.1, h.2 (by decide) "a"⟩

theorem save_preds_ok_of_isdir (preds : List (String × Prediction)) (dir : String)
    (fs : FS) (hd : isdir dir fs = true) (hw : fs.writable = true) :
    _save_preds preds dir fs = Except.ok
      { fs with files := ((dir ++ "/3dposes"), preds) :: fs.files,
                writes := fs.writes ++ [((dir ++ "/3dposes"), preds)] } := by
  simp [_save_preds, torch_save, hd, hw]

theorem save_preds_ok_of_not_isdir (preds : List (String × Prediction)) (dir : String)
    (fs : FS) (hd : isdir dir fs = false) (hw : fs.writable = true) :
    _save_preds preds dir fs = Except.ok
      { fs with dirs := fs.dirs ++ [dir],
                files := ((dir ++ "/3dposes"), preds) :: fs.files,
                writes := fs.writes ++ [((dir ++ "/3dposes"), preds)] } := by
  have hd' : fs.dirs.contains dir = false := hd
  have hmem : dir ∉ fs.dirs := by simpa using hd'
  simp [_save_preds, mkdir_p, makedirs, torch_save, isdir, hd', hmem, hw]

theorem save_preds_err_of_ro (preds : List (String × Prediction)) (dir : String)
    (fs : FS) (hw : fs.writable = false) :
    _save_preds preds dir fs = Except.error "EACCES" := by
  cases hd : isdir dir fs with
  | true => simp [_save_preds, torch_save, hd, hw]
  | false =>
    have hd' : fs.dirs.contains dir = false := hd
    have hmem : dir ∉ fs.dirs := by simpa using hd'
    simp [_save_preds, mkdir_p, makedirs, torch_save, isdir, hd', hmem, hw]

/-- C7: `_save_preds` creates the output directory when it is absent, and running it again
when the directory already exists does not raise. -/
theorem C7_save_preds_mkdir (preds : List (String × Prediction)) (dir : String) (fs : FS)
    (hw : fs.writable = true) :
    ∃ fs', _save_preds preds dir fs = Except.ok fs' ∧ isdir dir fs' = true ∧
      ∃ fs'', _save_preds preds dir fs' = Except.ok fs'' := by
  cases hd : isdir dir fs with
  | true =>
    refine ⟨_, save_preds_ok_of_isdir preds dir fs hd hw, hd, ?_⟩
    exact ⟨_, save_preds_ok_of_isdir preds dir _ hd hw⟩
  | false =>
    refine ⟨_, save_preds_ok_of_not_isdir preds dir fs hd hw, ?_, ?_⟩
    · show (fs.dirs ++ [dir]).contains dir = true
      simp
    · have hd2 : (fs.dirs ++ [dir]).contains dir = true := by simp
      exact ⟨_, save_preds_ok_of_isdir preds dir _ hd2 hw⟩

/-- Witness for C7 starting from a writable filesystem without the directory. -/
theorem C7_witness :
    fs0.writable = true ∧
    ∃ fs', _save_preds [] "out" fs0 = Except.ok fs' ∧ isdir "out" fs' = true ∧
      ∃ fs'', _save_preds [] "out" fs' = Except.ok fs'' :=
  ⟨rfl, C7_save_preds_mkdir [] "out" fs0 rfl⟩

/-- C8: a successful `_save_preds` performs exactly one file write, at the path
`data_output_dir ++ "/3dposes"`, holding the whole predictions dict. -/
theorem C8_single_file (preds : List (String × Prediction)) (dir : String) (fs fs' : FS)
    (h : _save_preds preds dir fs = Except.ok fs') :
    fs'.writes = fs.writes ++ [((dir ++ "/3dposes"), preds)] := by
  cases hw : fs.writable with
  | false => rw [save_preds_err_of_ro preds dir fs hw] at h; cases h
  | true =>
    cases hd : isdir dir fs with
    | true =>
      rw [save_preds_ok_of_isdir preds dir fs hd hw] at h
      cases h
      rfl
    | false =>
      rw [save_preds_ok_of_not_isdir preds dir fs hd hw] at h
      cases h
      rfl

/-- Witness for C8 on a concrete save. -/
theorem C8_witness :
    _save_preds predsAB "out" fs0 = Except.ok
      { fs0 with dirs := ["out"],
                 files := [("out" ++ "/3dposes", predsAB)],
                 writes := [("out" ++ "/3dposes", predsAB)] } ∧
    ({ fs0 with dirs := ["out"],
                files := [("out" ++ "/3dposes", predsAB)],
                writes := [("out" ++ "/3dposes", predsAB)] } : FS).writes =
      fs0.writes ++ [("out" ++ "/3dposes", predsAB)] := by
  have hsave : _save_preds predsAB "out" fs0 = Except.ok
      { fs0 with dirs := ["out"],
                 files := [("out" ++ "/3dposes", predsAB)],
                 writes := [("out" ++ "/3dposes", predsAB)] } :=
    save_preds_ok_of_not_isdir predsAB "out" fs0 rfl rfl
  exact ⟨hsave, C8_single_file predsAB "out" fs0 _ hsave⟩

/-- C9: no stage of `run` catches or transforms errors: the run fails with error `e` exactly
when one of `_load_model`, `_run_model` or `_save_preds` raised that very `e` (propagated
unchanged), and on any failure the filesystem is left untouched — in particular a failure in
loading or inference means `_save_preds` was never reached and no output file was written. -/
theorem C9_errors_propagate (load_outcome : Except String Model)
    (ds : List (String × Tensor)) (pav : Bool) (dir : String) (fs : FS) (e : String) :
    ((run load_outcome ds pav dir fs).2 = Except.error e ↔
      load_outcome = Except.error e ∨
      (∃ model, load_outcome = Except.ok model ∧
        _run_model model ds pav = Except.error e) ∨
      (∃ model preds pr, load_outcome = Except.ok model ∧
        _run_model model ds pav = Except.ok (preds, pr) ∧
        _save_preds preds dir fs = Except.error e)) ∧
    ((run load_outcome ds pav dir fs).2 = Except.error e →
      (run load_outcome ds pav dir fs).1 = fs) := by
  cases load_outcome with
  | error e0 =>
    refine ⟨?_, ?_⟩ <;> simp [run, _load_model]
  | ok model =>
    cases hrm : _run_model model ds pav with
    | error e1 =>
      refine ⟨?_, ?_⟩ <;> simp [run, _load_model, hrm]
    | ok pp =>
      obtain ⟨preds, prints⟩ := pp
      cases hsv : _save_preds preds dir fs with
      | error e2 =>
        refine ⟨?_, ?_⟩ <;> simp [run, _load_model, hrm, hsv]
      | ok fs1 =>
        refine ⟨?_, ?_⟩ <;> simp [run, _load_model, hrm, hsv]

/-- Witness for C9: a failing checkpoint load propagates its error and writes nothing. -/
theorem C9_witness :
    (run (Except.error "MissingCheckpoint") [] false "out" fs0).2 =
      Except.error "MissingCheckpoint" ∧
    (run (Except.error "MissingCheckpoint") [] false "out" fs0).1 = fs0 := by
  have h := C9_errors_propagate (Except.error "MissingCheckpoint") [] false "out" fs0
    "MissingCheckpoint"
  exact ⟨h.1.mpr (Or.inl rfl), h.2 (h.1.mpr (Or.inl rfl))⟩

/-- C10: on an empty dataset the run completes for either flag and for every model (even one
whose forward pass always fails, since no inference step executes), prints no progress line,
and still serializes the empty predictions dict to `dir ++ "/3dposes"`. -/
theorem C10_empty_dataset (model : Model) (pav : Bool) (dir : String) (fs : FS)
    (hw : fs.writable = true) :
    ∃ fs', run (Except.ok model) [] pav dir fs = (fs', Except.ok []) ∧
      fs'.writes = fs.writes ++ [((dir ++ "/3dposes"), ([] : List (String × Prediction)))] := by
  have hrm : _run_model model [] pav = Except.ok ([], []) := rfl
  cases hd : isdir dir fs with
  | true =>
    refine ⟨{ fs with
        files := ((dir ++ "/3dposes"), ([] : List (String × Prediction))) :: fs.files,
        writes := fs.writes ++
          [((dir ++ "/3dposes"), ([] : List (String × Prediction)))] }, ?_, rfl⟩
    simp [run, _load_model, hrm, save_preds_ok_of_isdir [] dir fs hd hw]
  | false =>
    refine ⟨{ fs with
        dirs := fs.dirs ++ [dir],
        files := ((dir ++ "/3dposes"), ([] : List (String × Prediction))) :: fs.files,
        writes := fs.writes ++
          [((dir ++ "/3dposes"), ([] : List (String × Prediction)))] }, ?_, rfl⟩
    simp [run, _load_model, hrm, save_preds_ok_of_not_isdir [] dir fs hd hw]

/-- Witness for C10: empty dataset, video flag set, a model that always raises. -/
theorem C10_witness :
    fs0.writable = true ∧
    ∃ fs', run (Except.ok failModel) [] true "out" fs0 = (fs', Except.ok []) ∧
      fs'.writes = fs0.writes ++ [(("out" ++ "/3dposes"),
        ([] : List (String × Prediction)))] :=
  ⟨rfl, C10_empty_dataset failModel true "out" fs0 rfl⟩
